import Mathlib

/-!
Shallow embedding of the TS-map estimation core of `gammapy/estimators/ts_map.py`
(classes `SimpleMapDataset`, `BrentqFluxEstimator`, `TSMapEstimator`), together with
theorems settling the behavioural claims about it.

Modelling conventions:
* IEEE floating-point values are modelled by `FVal := Option ℝ`: `some x` is a finite
  real value, `none` stands for a non-finite value (NaN, and in the few places where
  the code can produce an infinity, that too).  All arithmetic on `FVal` propagates
  `none`, matching NaN propagation.  `fdiv` returns `none` on a zero divisor (the
  float code would produce `inf`/`nan` there).
* `Real.log` extends the mathematical `ln` by `0` on non-positive arguments and Lean's
  real division is total with `x / 0 = 0`; every theorem below that depends on the
  value of a logarithm or a quotient only evaluates it on arguments where the float
  code computes the same mathematical value (positive predicted counts, non-zero
  divisors).
* `scipy.optimize.brentq` is external library code; it is modelled by an oracle
  `Brentq : ℝ → ℝ → BrentqOutcome` mapping the bracket `(a, b)` it is called with to
  either `success root iterations` or `failure` (the `RuntimeError`/`ValueError` the
  source catches).  Brent's method guarantees that a returned root lies inside the
  bracket; theorems that need this take it as a hypothesis.
* The cython helpers `cash_sum_cython`, `f_cash_root_cython` and `norm_bounds_cython`
  are code of the repository that is not part of the sources given here; they are
  modelled from the spec (section 4.1), see the doc comments below.
-/

noncomputable section

open scoped Classical

namespace GammapyTs

/-- A floating-point value: `some x` is a finite real, `none` is NaN (or another
non-finite value).  See the modelling conventions in the file header. -/
abbrev FVal := Option ℝ

/-- Float subtraction, propagating NaN. -/
def fsub : FVal → FVal → FVal
  | some a, some b => some (a - b)
  | _, _ => none

/-- Float multiplication, propagating NaN (note `0 * nan = nan` for floats as well). -/
def fmul : FVal → FVal → FVal
  | some a, some b => some (a * b)
  | _, _ => none

/-- Float division: NaN propagates, and a zero divisor gives a non-finite result. -/
def fdiv : FVal → FVal → FVal
  | some a, some b => if b = 0 then none else some (a / b)
  | _, _ => none

/-- Model of `np.sign`: `-1`, `0`, `1` on finite reals, NaN on NaN.
`Real.sign` has exactly the finite behaviour. -/
def fsign : FVal → FVal
  | some a => some (Real.sign a)
  | none => none

/-- Model of `np.sqrt`: NaN on NaN and on negative arguments. -/
def fsqrt : FVal → FVal
  | some a => if a < 0 then none else some (Real.sqrt a)
  | none => none

/-- Model of the Python comparison `v < t` for a float `v`: false when `v` is NaN. -/
def fval_lt (v : FVal) (t : ℝ) : Prop := ∃ x, v = some x ∧ x < t

/-- One bin of a cutout: the `counts`, `background` and `model` arrays of
`SimpleMapDataset` are equal-shaped, so a dataset is a list of such bins
(the flattened `.ravel()` view the cython helpers receive). -/
structure Bin where
  counts : ℝ
  background : ℝ
  model : ℝ

/-- The per-pixel cutout dataset (`SimpleMapDataset` in `ts_map.py`): the three
flattened arrays as a list of bins, the flux seed `x_guess` at the pixel, and the
`norm_bounds` triple.

`norm_bounds` is produced by `norm_bounds_cython`, repository code not present in
the given sources.  Modelled from the spec: `bounds()` returns
`(norm_min, norm_max, norm_min_total)`, an analytically derived lower/upper search
bracket for the root of the statistic derivative, and a floor value
`norm_min_total` guaranteeing the predicted counts stay non-negative everywhere in
the cutout.  The spec does not give closed forms, so the triple is carried as data
of the dataset (the source caches it as a `lazyproperty`, i.e. it is a function of
the three arrays; keeping it as a field only forgets that functional dependency,
which no claim uses). -/
structure SimpleMapDataset where
  bins : List Bin
  x_guess : FVal
  norm_bounds : ℝ × ℝ × ℝ

/-- Total counts of the cutout, `dataset.counts.sum()`. -/
def SimpleMapDataset.counts_sum (ds : SimpleMapDataset) : ℝ :=
  (ds.bins.map Bin.counts).sum

/-- Cash statistic summed over the cutout, `cash_sum_cython` (repository code not in
the given sources).  Modelled from the spec: for each bin
`2 * (predicted - counts * ln predicted)` with `predicted = background + norm * model`,
accumulated over the cutout. -/
def SimpleMapDataset.stat_sum (ds : SimpleMapDataset) (norm : ℝ) : ℝ :=
  (ds.bins.map (fun b =>
    2 * ((b.background + norm * b.model)
      - b.counts * Real.log (b.background + norm * b.model)))).sum

/-- Derivative of the Cash statistic w.r.t. the norm, `f_cash_root_cython`
(repository code not in the given sources).  Modelled from the spec:
`2 * Σ model * (1 - counts / predicted)`. -/
def SimpleMapDataset.stat_derivative (ds : SimpleMapDataset) (norm : ℝ) : ℝ :=
  2 * (ds.bins.map (fun b =>
    b.model * (1 - b.counts / (b.background + norm * b.model)))).sum

/-- Second derivative of the Cash statistic, from `SimpleMapDataset.stat_2nd_derivative`
in the source: `(model ** 2 * counts / (background + norm * model) ** 2).sum()`. -/
def SimpleMapDataset.stat_2nd_derivative (ds : SimpleMapDataset) (norm : ℝ) : ℝ :=
  (ds.bins.map (fun b =>
    b.model ^ 2 * b.counts / (b.background + norm * b.model) ^ 2)).sum

/-- Float lift of `stat_sum`: a NaN norm makes every bin's term NaN, so the sum is
NaN exactly when the cutout is non-empty (the sum of an empty array is `0.0`). -/
def SimpleMapDataset.stat_sum_f (ds : SimpleMapDataset) : FVal → FVal
  | some x => some (ds.stat_sum x)
  | none => if ds.bins.isEmpty then some 0 else none

/-- Float lift of `stat_2nd_derivative`, NaN on a NaN norm for a non-empty cutout. -/
def SimpleMapDataset.stat_2nd_derivative_f (ds : SimpleMapDataset) : FVal → FVal
  | some x => some (ds.stat_2nd_derivative x)
  | none => if ds.bins.isEmpty then some 0 else none

/-- Outcome of one `scipy.optimize.brentq` call: either convergence to a root with an
iteration count, or the `RuntimeError`/`ValueError` that the source catches
(invalid bracket, iteration budget exceeded, numerical failure). -/
inductive BrentqOutcome where
  | success (root : ℝ) (iterations : ℕ)
  | failure

/-- A brentq oracle: the outcome of the external root finder as a function of the
bracket `(a, b)` it is invoked with. -/
def Brentq := ℝ → ℝ → BrentqOutcome

/-- Configuration state of `BrentqFluxEstimator`.  `selection_optional` is modelled by
the two membership tests the source performs on it (`"ul" in ...` and
`"errn-errp" in ...`). -/
structure BrentqFluxEstimator where
  rtol : ℝ
  n_sigma : ℝ
  n_sigma_ul : ℝ
  sel_errn_errp : Bool
  sel_ul : Bool
  max_niter : ℕ
  ts_threshold : Option ℝ
  flux_ref : ℝ

/-- The per-pixel fit result dictionary.  `norm`, `ts`, `norm_err`, `stat` are float
values (NaN permitted); `niter` is an iteration count; the three optional entries are
`none` when the corresponding key is absent from the dictionary and `some v` when
present with float value `v`. -/
structure FitResult where
  ts : FVal
  norm : FVal
  niter : ℕ
  norm_err : FVal
  stat : FVal
  norm_ul : Option FVal := none
  norm_errn : Option FVal := none
  norm_errp : Option FVal := none

/-- The `(norm, niter)` pair computed by the first half of
`BrentqFluxEstimator.estimate_best_fit` (lines 512-533): the zero-counts branch takes
`(norm_min_total, 0)`; otherwise brentq is run on the bracket `(norm_min, norm_max)`
and its root is clamped from below by `norm_min_total`; on failure `(NaN, max_niter)`. -/
def best_norm_niter (cfg : BrentqFluxEstimator) (ds : SimpleMapDataset)
    (brentq : Brentq) : FVal × ℕ :=
  if ¬ (0 < ds.counts_sum) then
    (some ds.norm_bounds.2.2, 0)
  else
    match brentq ds.norm_bounds.1 ds.norm_bounds.2.1 with
    | .success root iters => (some (max root ds.norm_bounds.2.2), iters)
    | .failure => (none, cfg.max_niter)

/-- Model of `BrentqFluxEstimator.estimate_best_fit` (lines 508-542): after the
`(norm, niter)` pair is fixed, `ts = (stat_sum(0) - stat_sum(norm)) * sign(norm)` and
`norm_err = sqrt(1 / stat_2nd_derivative(norm)) * n_sigma`; no exception escapes
(the brentq failures are caught and turned into the NaN branch), which the embedding
reflects by being a total function. -/
def estimate_best_fit (cfg : BrentqFluxEstimator) (ds : SimpleMapDataset)
    (brentq : Brentq) : FitResult :=
  { ts := fmul (fsub (ds.stat_sum_f (some 0))
                     (ds.stat_sum_f (best_norm_niter cfg ds brentq).1))
               (fsign (best_norm_niter cfg ds brentq).1)
    norm := (best_norm_niter cfg ds brentq).1
    niter := (best_norm_niter cfg ds brentq).2
    norm_err := fmul (fsqrt (fdiv (some 1)
                       (ds.stat_2nd_derivative_f (best_norm_niter cfg ds brentq).1)))
                     (some cfg.n_sigma)
    stat := ds.stat_sum_f (best_norm_niter cfg ds brentq).1 }

/-- Model of the `nan_result` property (lines 544-560): every float entry is NaN,
`niter` is `0`, and the optional keys are present (with NaN value) exactly when
selected. -/
def nan_result (cfg : BrentqFluxEstimator) : FitResult :=
  { ts := none
    norm := none
    niter := 0
    norm_err := none
    stat := none
    norm_errp := if cfg.sel_errn_errp then some none else none
    norm_errn := if cfg.sel_errn_errp then some none else none
    norm_ul := if cfg.sel_ul then some none else none }

/-- Model of `BrentqFluxEstimator._confidence` (lines 562-593): root-find
`ts_diff(x) = stat_best + n_sigma^2 - stat_sum(x)` on the bracket
`[norm, norm + 100 * norm_err]` (positive side) or `[norm - 100 * norm_err, norm]`
(negative side) and return the signed offset `(root - norm) * factor`; NaN on any
failure.  When `norm` or `norm_err` is not finite the brackets are not finite and the
real brentq always raises, hence the result is NaN regardless of the oracle.
The objective `ts_diff` is evaluated only inside the external root finder, so it does
not occur in the embedding; the oracle stands for the whole call. -/
def confidence (cfg : BrentqFluxEstimator) (ds : SimpleMapDataset) (n_sigma : ℝ)
    (result : FitResult) (positive : Bool) (brentq : Brentq) : FVal :=
  match result.norm, result.norm_err with
  | some norm, some norm_err =>
    (match brentq (if positive then norm else norm - 100 * norm_err)
                  (if positive then norm + 100 * norm_err else norm) with
     | .success root _ => some ((root - norm) * (if positive then 1 else -1))
     | .failure => none)
  | _, _ => none

/-- Model of `BrentqFluxEstimator.estimate_ul` (lines 595-602): the value stored
under the `norm_ul` key, `_confidence` with `n_sigma_ul` on the positive side. -/
def estimate_ul (cfg : BrentqFluxEstimator) (ds : SimpleMapDataset)
    (result : FitResult) (brentq : Brentq) : FVal :=
  confidence cfg ds cfg.n_sigma_ul result true brentq

/-- Model of `BrentqFluxEstimator.estimate_errn_errp` (lines 604-615): the pair of
values stored under `norm_errn` and `norm_errp`: `_confidence` with `n_sigma` on the
negative and on the positive side respectively. -/
def estimate_errn_errp (cfg : BrentqFluxEstimator) (ds : SimpleMapDataset)
    (result : FitResult) (br_errn br_errp : Brentq) : FVal × FVal :=
  (confidence cfg ds cfg.n_sigma result false br_errn,
   confidence cfg ds cfg.n_sigma result true br_errp)

/-- The screening TS computed inline in `BrentqFluxEstimator.run` (lines 620-623):
the TS at the externally supplied flux seed, converted to a norm by dividing by the
flux reference scale, with the sign taken from the seed. -/
def ts_guess (cfg : BrentqFluxEstimator) (ds : SimpleMapDataset) : FVal :=
  fmul (fsub (ds.stat_sum_f (some 0))
             (ds.stat_sum_f (fdiv ds.x_guess (some cfg.flux_ref))))
       (fsign ds.x_guess)

/-- The pre-screening condition of `BrentqFluxEstimator.run` (lines 619-625): a
threshold is configured and the screening TS compares strictly below it (a NaN TS
does not compare below anything, as in Python). -/
def screened (cfg : BrentqFluxEstimator) (ds : SimpleMapDataset) : Prop :=
  match cfg.ts_threshold with
  | some threshold => fval_lt (ts_guess cfg ds) threshold
  | none => False

/-- Model of `BrentqFluxEstimator.run` (lines 617-635): short-circuit to `nan_result`
when screened out, otherwise the best fit followed by the optional upper-limit and
asymmetric-error updates.  The four oracles stand for the up-to-four brentq calls
(best fit, upper limit, errn, errp). -/
def run (cfg : BrentqFluxEstimator) (ds : SimpleMapDataset)
    (br_fit br_ul br_errn br_errp : Brentq) : FitResult :=
  if screened cfg ds then nan_result cfg
  else
    let result := estimate_best_fit cfg ds br_fit
    let result := if cfg.sel_ul then
        { result with norm_ul := some (estimate_ul cfg ds result br_ul) }
      else result
    let result := if cfg.sel_errn_errp then
        { result with
            norm_errn := some (estimate_errn_errp cfg ds result br_errn br_errp).1,
            norm_errp := some (estimate_errn_errp cfg ds result br_errn br_errp).2 }
      else result
    result

/-- A spatial pixel position `(row, col)`, as produced by `np.where` on the mask. -/
abbrev Pos := ℕ × ℕ

/-- Model of `TSMapEstimator.estimate_sqrt_ts` (lines 303-330), pixelwise:
`np.where(ts > 0, sqrt(ts), -sqrt(-ts))`; a NaN pixel stays NaN (both `np.where`
branches are NaN there). -/
def estimate_sqrt_ts (map_ts : Pos → FVal) : Pos → FVal :=
  fun p =>
    match map_ts p with
    | some ts => some (if ts > 0 then Real.sqrt ts else -Real.sqrt (-ts))
    | none => none

/-- Scatter of per-position values into a map created filled with NaN:
`m = Map.from_geom(..., data=np.nan)` then `m.data[j, i] = vals` (lines 411-412).
A position never written keeps NaN; repeated writes keep the last one (the positions
coming from `np.where` are in fact distinct). -/
def scatter_vals (positions : List Pos) (vals : List FVal) : Pos → FVal :=
  fun p =>
    match ((positions.zip vals).filter (fun q => q.1 == p)).getLast? with
    | some q => q.2
    | none => none

/-- Pixelwise scaling of a whole map, `m.data *= flux_ref` (line 414); NaN pixels
stay NaN. -/
def map_scale (c : ℝ) (m : Pos → FVal) : Pos → FVal :=
  fun p => fmul (m p) (some c)

/-- The inputs of the scan-and-scatter phase of `TSMapEstimator.run` (lines 373-417):
the list of pixels of the image geometry (row-major, without duplicates), the boolean
evaluation mask, and the per-pixel worker
`wrap = functools.partial(_ts_value, counts=..., ...)`.  The worker is kept abstract
here: it builds the cutout `SimpleMapDataset` at the position and calls
`BrentqFluxEstimator.run` on it (embedded above); the claims about this phase concern
only how its results are scattered. -/
structure ScanInputs where
  pixels : List Pos
  mask : Pos → Bool
  ts_value : Pos → FitResult

/-- The output maps assembled by `TSMapEstimator.run` before any upsampling/cropping.
The three optional maps are present exactly when selected; `sqrt_ts` is derived from
the `ts` map. -/
structure TSMaps where
  ts : Pos → FVal
  flux : Pos → FVal
  niter : Pos → FVal
  flux_err : Pos → FVal
  flux_errp : Option (Pos → FVal)
  flux_errn : Option (Pos → FVal)
  flux_ul : Option (Pos → FVal)
  sqrt_ts : Pos → FVal

/-- Map assembly of `TSMapEstimator.run` (lines 395-417): the per-pixel results
`results = positions.map inp.ts_value` are collected (sequentially or by the pool, in
either case re-associated with their position); each named map is created filled
with NaN and written at the masked positions from the corresponding result key
(`name.replace("flux", "norm")`), the flux-named maps are scaled by the flux
reference, the optional maps exist exactly when selected, and `sqrt_ts` is derived
from `ts`.  The estimator configuration `cfg` is the `_flux_estimator` of the
`TSMapEstimator`, which also carries its `selection_optional` and the `flux_ref` set
by `estimate_exposure`. -/
def scatter_maps (cfg : BrentqFluxEstimator) (inp : ScanInputs)
    (positions : List Pos) : TSMaps :=
  { ts := scatter_vals positions ((positions.map inp.ts_value).map FitResult.ts)
    flux := map_scale cfg.flux_ref
      (scatter_vals positions ((positions.map inp.ts_value).map FitResult.norm))
    niter := scatter_vals positions
      ((positions.map inp.ts_value).map (fun r => some (r.niter : ℝ)))
    flux_err := map_scale cfg.flux_ref
      (scatter_vals positions ((positions.map inp.ts_value).map FitResult.norm_err))
    flux_errp := if cfg.sel_errn_errp then
        some (map_scale cfg.flux_ref (scatter_vals positions
          ((positions.map inp.ts_value).map (fun r => r.norm_errp.getD none))))
      else none
    flux_errn := if cfg.sel_errn_errp then
        some (map_scale cfg.flux_ref (scatter_vals positions
          ((positions.map inp.ts_value).map (fun r => r.norm_errn.getD none))))
      else none
    flux_ul := if cfg.sel_ul then
        some (map_scale cfg.flux_ref (scatter_vals positions
          ((positions.map inp.ts_value).map (fun r => r.norm_ul.getD none))))
      else none
    sqrt_ts := estimate_sqrt_ts
      (scatter_vals positions ((positions.map inp.ts_value).map FitResult.ts)) }

/-- The scan-and-scatter phase itself: `positions` are the mask-true pixels
(`x, y = np.where(...); positions = list(zip(x, y))`); the statement
`j, i = zip(*positions)` raises `ValueError` when `positions` is empty (unpacking
two variables from an empty `zip`), modelled as `Except.error ()`; otherwise the
output maps are assembled by `scatter_maps`. -/
def ts_map_run (cfg : BrentqFluxEstimator) (inp : ScanInputs) : Except Unit TSMaps :=
  if inp.pixels.filter inp.mask = [] then
    Except.error ()
  else
    Except.ok (scatter_maps cfg inp (inp.pixels.filter inp.mask))

/-- Sum of squares of a flattened array, `np.sum(kernel ** 2)`. -/
def sum_sq (k : List ℝ) : ℝ := (k.map (fun a => a ^ 2)).sum

/-- The kernel copy used by `TSMapEstimator.estimate_flux_default` (line 263):
`kernel = kernel / np.sum(kernel ** 2)`, elementwise on the flattened array. -/
def flux_kernel (k : List ℝ) : List ℝ := k.map (fun a => a / sum_sq k)

/-- Elementwise dot product of two flattened arrays of the same shape. -/
def dot (k₁ k₂ : List ℝ) : ℝ := ((k₁.zip k₂).map (fun q => q.1 * q.2)).sum

/-- Model of `TSMapEstimator.estimate_flux_default` (lines 245-266): the
background-subtracted residual `(counts - npred)` divided by exposure, convolved with
the rescaled kernel, then summed over the non-spatial axis.  The maps are functions
over an abstract bin index `ι`; `Map.convolve` and `Map.sum_over_axes` belong to the
excluded `gammapy.maps` collaborator and are abstract parameters. -/
def estimate_flux_default {ι κ : Type}
    (convolve : (ι → ℝ) → List ℝ → ι → ℝ)
    (sum_over_axes : (ι → ℝ) → κ → ℝ)
    (counts npred exposure : ι → ℝ) (kernel : List ℝ) : κ → ℝ :=
  sum_over_axes (convolve (fun i => (counts i - npred i) / exposure i)
    (flux_kernel kernel))

/-! ### Helper lemmas -/

/-- Summed inequalities over a list, elementwise. -/
lemma list_sum_le {α : Type} (l : List α) (f g : α → ℝ)
    (h : ∀ a ∈ l, f a ≤ g a) : (l.map f).sum ≤ (l.map g).sum := by
  induction l with
  | nil => simp
  | cons a t ih =>
    simp only [List.map_cons, List.sum_cons]
    exact add_le_add (h a (List.mem_cons_self a t))
      (ih (fun x hx => h x (List.mem_cons_of_mem a hx)))

/-- Per-bin subgradient inequality of the Cash statistic: the statistic at a larger
norm dominates its tangent line at a smaller norm.  This is the convexity of
`p ↦ 2 (p - c ln p)`, obtained from `ln t ≤ t - 1`. -/
lemma bin_subgrad (c b m y z : ℝ) (hc : 0 ≤ c) (hm : 0 ≤ m)
    (hp : 0 < b + y * m) (hyz : y ≤ z) :
    2 * ((b + y * m) - c * Real.log (b + y * m))
      + (z - y) * 2 * (m * (1 - c / (b + y * m)))
      ≤ 2 * ((b + z * m) - c * Real.log (b + z * m)) := by
  have hd : 0 ≤ (z - y) * m := mul_nonneg (by linarith) hm
  have hqe : b + z * m = b + y * m + (z - y) * m := by ring
  have hq : 0 < b + z * m := by linarith
  have hlog : Real.log (b + z * m) - Real.log (b + y * m)
      ≤ (b + z * m) / (b + y * m) - 1 := by
    have h1 : Real.log ((b + z * m) / (b + y * m)) ≤ (b + z * m) / (b + y * m) - 1 :=
      Real.log_le_sub_one_of_pos (div_pos hq hp)
    rwa [Real.log_div (ne_of_gt hq) (ne_of_gt hp)] at h1
  have hfrac : (b + z * m) / (b + y * m) - 1 = ((z - y) * m) / (b + y * m) := by
    rw [hqe, add_div, div_self (ne_of_gt hp)]
    ring
  have hclog : c * (Real.log (b + z * m) - Real.log (b + y * m))
      ≤ c * (((z - y) * m) / (b + y * m)) := by
    rw [← hfrac]
    exact mul_le_mul_of_nonneg_left hlog hc
  have e1 : (z - y) * 2 * (m * (1 - c / (b + y * m)))
      = 2 * ((z - y) * m) - 2 * (c * (((z - y) * m) / (b + y * m))) := by
    ring
  nlinarith [hclog, e1, hqe]

/-- Per-bin monotonicity of the Cash-statistic derivative in the norm. -/
lemma bin_deriv_mono (c b m y z : ℝ) (hc : 0 ≤ c) (hm : 0 ≤ m)
    (hp : 0 < b + y * m) (hyz : y ≤ z) :
    m * (1 - c / (b + y * m)) ≤ m * (1 - c / (b + z * m)) := by
  have hd : 0 ≤ (z - y) * m := mul_nonneg (by linarith) hm
  have hqe : b + z * m = b + y * m + (z - y) * m := by ring
  have hq : 0 < b + z * m := by linarith
  have hdiv : c / (b + z * m) ≤ c / (b + y * m) := by
    rw [div_le_div_iff₀ hq hp]
    exact mul_le_mul_of_nonneg_left (by linarith) hc
  exact mul_le_mul_of_nonneg_left (by linarith) hm

/-- List form of the summed subgradient inequality, see `stat_sum_subgrad`. -/
lemma bins_subgrad (y z : ℝ) (hyz : y ≤ z) :
    ∀ l : List Bin,
      (∀ b ∈ l, 0 ≤ b.counts ∧ 0 ≤ b.model ∧ 0 < b.background + y * b.model) →
      (l.map (fun b => 2 * ((b.background + y * b.model)
          - b.counts * Real.log (b.background + y * b.model)))).sum
        + (z - y) * (2 * (l.map (fun b =>
            b.model * (1 - b.counts / (b.background + y * b.model)))).sum)
        ≤ (l.map (fun b => 2 * ((b.background + z * b.model)
            - b.counts * Real.log (b.background + z * b.model)))).sum := by
  intro l
  induction l with
  | nil => intro _; simp
  | cons a t ih =>
    intro H
    have ha := H a (List.mem_cons_self a t)
    have hstep := bin_subgrad a.counts a.background a.model y z ha.1 ha.2.1 ha.2.2 hyz
    have ht := ih (fun x hx => H x (List.mem_cons_of_mem a hx))
    simp only [List.map_cons, List.sum_cons]
    nlinarith [hstep, ht]

/-- Summed subgradient inequality:
`stat_sum y + (z - y) * stat_derivative y ≤ stat_sum z` for `y ≤ z`, when every bin
has non-negative counts and model and positive predicted counts at `y`. -/
lemma stat_sum_subgrad (ds : SimpleMapDataset) (y z : ℝ) (hyz : y ≤ z)
    (H : ∀ b ∈ ds.bins,
      0 ≤ b.counts ∧ 0 ≤ b.model ∧ 0 < b.background + y * b.model) :
    ds.stat_sum y + (z - y) * ds.stat_derivative y ≤ ds.stat_sum z := by
  unfold SimpleMapDataset.stat_sum SimpleMapDataset.stat_derivative
  exact bins_subgrad y z hyz ds.bins H

/-- Summed monotonicity of the Cash-statistic derivative. -/
lemma stat_derivative_mono (ds : SimpleMapDataset) (y z : ℝ) (hyz : y ≤ z)
    (H : ∀ b ∈ ds.bins,
      0 ≤ b.counts ∧ 0 ≤ b.model ∧ 0 < b.background + y * b.model) :
    ds.stat_derivative y ≤ ds.stat_derivative z := by
  unfold SimpleMapDataset.stat_derivative
  have h := list_sum_le ds.bins
    (fun b => b.model * (1 - b.counts / (b.background + y * b.model)))
    (fun b => b.model * (1 - b.counts / (b.background + z * b.model)))
    (fun b hb => bin_deriv_mono b.counts b.background b.model y z
      (H b hb).1 (H b hb).2.1 (H b hb).2.2 hyz)
  linarith

/-- A position that is never written keeps the NaN fill of the freshly created map. -/
lemma filter_zip_nil (t : List Pos) (vals : List FVal) (p : Pos) (hp : p ∉ t) :
    (t.zip vals).filter (fun q => q.1 == p) = [] := by
  apply List.filter_eq_nil_iff.mpr
  intro q hq
  have h1 : q.1 ∈ t := by
    obtain ⟨x, y⟩ := q
    exact (List.of_mem_zip hq).1
  simp only [beq_iff_eq]
  intro h
  exact hp (h ▸ h1)

lemma scatter_vals_not_mem (positions : List Pos) (vals : List FVal) (p : Pos)
    (hp : p ∉ positions) : scatter_vals positions vals p = none := by
  unfold scatter_vals
  rw [filter_zip_nil positions vals p hp]
  rfl

/-- With distinct positions, the scatter writes each position exactly its own value. -/
lemma scatter_vals_self (f : Pos → FVal) (positions : List Pos) (p : Pos)
    (hnd : positions.Nodup) (hp : p ∈ positions) :
    scatter_vals positions (positions.map f) p = f p := by
  induction positions with
  | nil => simp at hp
  | cons a t ih =>
    rw [List.nodup_cons] at hnd
    by_cases hap : a = p
    · subst hap
      unfold scatter_vals
      rw [List.map_cons, List.zip_cons_cons,
        List.filter_cons_of_pos (by simp), filter_zip_nil t (t.map f) a hnd.1]
      simp
    · have hpt : p ∈ t := (List.mem_cons.mp hp).resolve_left (fun h => hap h.symm)
      have step : scatter_vals (a :: t) ((a :: t).map f) p
          = scatter_vals t (t.map f) p := by
        unfold scatter_vals
        rw [List.map_cons, List.zip_cons_cons,
          List.filter_cons_of_neg (by simp [hap])]
      rw [step]
      exact ih hnd.2 hpt

/-! ### Concrete instances used by witnesses and counterexamples -/

/-- A concrete estimator configuration (both optional selections on, the default
`max_niter = 20`, no screening threshold). -/
def cfg_w : BrentqFluxEstimator :=
  { rtol := 0.01, n_sigma := 1, n_sigma_ul := 2, sel_errn_errp := true,
    sel_ul := true, max_niter := 20, ts_threshold := none, flux_ref := 1 }

/-- A brentq oracle that always fails (models a raised `ValueError`/`RuntimeError`). -/
def br_fail : Brentq := fun _ _ => .failure

/-- A trivial successful brentq oracle (never inspected by the zero-counts branch). -/
def br_any : Brentq := fun _ _ => .success 0 0

/-- A one-bin cutout with zero counts. -/
def ds_zero : SimpleMapDataset :=
  { bins := [⟨0, 1, 1⟩], x_guess := some 0, norm_bounds := (-1, 1, -1) }

/-- A one-bin cutout with one count. -/
def ds_one : SimpleMapDataset :=
  { bins := [⟨1, 1, 1⟩], x_guess := some 0, norm_bounds := (-1, 1, -1) }

/-- A one-bin cutout with a large count excess: counts `10^6`, background `1`, unit
model amplitude.  The exact root of the statistic derivative is
`(counts - background) / model = 999999`; the bracket `(0, 2 * 10^6)` contains it and
the floor `-1` is exactly the normalization at which the predicted counts reach zero. -/
def dsC : SimpleMapDataset :=
  { bins := [⟨1000000, 1, 1⟩], x_guess := some 0, norm_bounds := (0, 2000000, -1) }

/-- Oracle for the best-fit brentq call on `dsC`: returns the exact root `999999`
(the true zero of the derivative, well inside the bracket). -/
def br_fitC : Brentq := fun _ _ => .success 999999 5

/-- Oracle for the upper-limit brentq call on `dsC`: a root inside the upward bracket
`[999999, 1099999]`, close to the true `n_sigma_ul = 2` profile crossing (which lies
near `norm + 2 * norm_err = 1001999` in the Gaussian approximation). -/
def br_ulC : Brentq := fun _ _ => .success 1001999 7

/-- Oracle for the `errn` brentq call on `dsC`: a root inside the downward bracket
`[899999, 999999]`, close to the true one-sigma crossing near `norm - norm_err`. -/
def br_errnC : Brentq := fun _ _ => .success 999000 6

/-- A generic converged fit result used by witnesses of the confidence theorems. -/
def result_w : FitResult :=
  { ts := some 0, norm := some 2, niter := 3, norm_err := some 1, stat := some 5 }

/-- Witness oracle for the positive confidence bracket of `result_w`. -/
def br_ul_w : Brentq := fun _ _ => .success 3 4

/-- Witness oracle for the negative confidence bracket of `result_w`. -/
def br_errn_w : Brentq := fun _ _ => .success 1 2

/-- Real square root evaluation used by the `dsC` computations. -/
lemma sqrt_mil : Real.sqrt 1000000 = 1000 := by
  rw [show (1000000 : ℝ) = 1000 ^ 2 by norm_num]
  exact Real.sqrt_sq (by norm_num)

/-- The best-fit pair computed on `dsC` with the exact-root oracle. -/
lemma dsC_best_norm : best_norm_niter cfg_w dsC br_fitC = (some 999999, 5) := by
  unfold best_norm_niter
  rw [if_neg (not_not_intro
    (by norm_num [SimpleMapDataset.counts_sum, dsC] : (0:ℝ) < dsC.counts_sum))]
  simp only [br_fitC]
  rw [show dsC.norm_bounds.2.2 = (-1 : ℝ) from rfl,
    max_eq_left (by norm_num : (-1:ℝ) ≤ 999999)]

/-- The fitted norm on `dsC`. -/
lemma dsC_norm : (estimate_best_fit cfg_w dsC br_fitC).norm = some 999999 := by
  show (best_norm_niter cfg_w dsC br_fitC).1 = some 999999
  rw [dsC_best_norm]

/-- The symmetric error on `dsC`: `sqrt(1 / (10^6 / 10^12)) * 1 = 1000`. -/
lemma dsC_norm_err : (estimate_best_fit cfg_w dsC br_fitC).norm_err = some 1000 := by
  show fmul (fsqrt (fdiv (some 1)
      (dsC.stat_2nd_derivative_f (best_norm_niter cfg_w dsC br_fitC).1)))
      (some cfg_w.n_sigma) = some 1000
  rw [dsC_best_norm]
  show fmul (fsqrt (fdiv (some 1) (some (dsC.stat_2nd_derivative 999999))))
      (some cfg_w.n_sigma) = some 1000
  rw [show dsC.stat_2nd_derivative 999999 = 1 / 1000000 by
    norm_num [SimpleMapDataset.stat_2nd_derivative, dsC]]
  show fmul (fsqrt (if (1/1000000 : ℝ) = 0 then none
      else some (1 / (1/1000000)))) (some cfg_w.n_sigma) = some 1000
  rw [if_neg (by norm_num : ¬ ((1/1000000 : ℝ) = 0)),
    show (1 : ℝ) / (1/1000000) = 1000000 by norm_num]
  show fmul (if (1000000:ℝ) < 0 then none else some (Real.sqrt 1000000))
      (some cfg_w.n_sigma) = some 1000
  rw [if_neg (by norm_num : ¬ ((1000000:ℝ) < 0)), sqrt_mil]
  show some (1000 * cfg_w.n_sigma) = some 1000
  norm_num [cfg_w]

/-! ### Claims -/

/-- C2: for every cutout dataset whose counts sum to zero, `estimate_best_fit` skips
root-finding entirely (the result does not depend on the brentq oracle) and returns
`norm = norm_min_total`, the floor component of the dataset's norm bounds, with
`niter = 0`. -/
theorem estimate_best_fit_zero_counts (cfg : BrentqFluxEstimator)
    (ds : SimpleMapDataset) (brentq : Brentq) (h : ds.counts_sum = 0) :
    (estimate_best_fit cfg ds brentq).norm = some ds.norm_bounds.2.2 ∧
    (estimate_best_fit cfg ds brentq).niter = 0 := by
  have hb : best_norm_niter cfg ds brentq = (some ds.norm_bounds.2.2, 0) := by
    unfold best_norm_niter
    rw [if_pos (by rw [h]; exact lt_irrefl 0)]
  constructor
  · show (best_norm_niter cfg ds brentq).1 = some ds.norm_bounds.2.2
    rw [hb]
  · show (best_norm_niter cfg ds brentq).2 = 0
    rw [hb]

/-- Witness for C2 on the concrete zero-counts cutout `ds_zero`. -/
theorem estimate_best_fit_zero_counts_witness :
    (estimate_best_fit cfg_w ds_zero br_any).norm = some (-1) ∧
    (estimate_best_fit cfg_w ds_zero br_any).niter = 0 := by
  have h := estimate_best_fit_zero_counts cfg_w ds_zero br_any
    (by norm_num [SimpleMapDataset.counts_sum, ds_zero])
  simpa [ds_zero] using h

/-- C3: whenever the brentq call inside `estimate_best_fit` fails (invalid bracket,
iteration budget exceeded, or numerical failure — all raised as the
`RuntimeError`/`ValueError` the source catches), the returned result has `norm = NaN`
and `niter = max_niter`; the failure is caught inside `estimate_best_fit` (the
embedding is a total function), so nothing escapes to the scan. -/
theorem estimate_best_fit_brentq_failure (cfg : BrentqFluxEstimator)
    (ds : SimpleMapDataset) (brentq : Brentq) (hc : 0 < ds.counts_sum)
    (hf : brentq ds.norm_bounds.1 ds.norm_bounds.2.1 = .failure) :
    (estimate_best_fit cfg ds brentq).norm = none ∧
    (estimate_best_fit cfg ds brentq).niter = cfg.max_niter := by
  have hb : best_norm_niter cfg ds brentq = (none, cfg.max_niter) := by
    unfold best_norm_niter
    rw [if_neg (not_not_intro hc), hf]
  constructor
  · show (best_norm_niter cfg ds brentq).1 = none
    rw [hb]
  · show (best_norm_niter cfg ds brentq).2 = cfg.max_niter
    rw [hb]

/-- Witness for C3 on the concrete cutout `ds_one` with an always-failing oracle. -/
theorem estimate_best_fit_brentq_failure_witness :
    (estimate_best_fit cfg_w ds_one br_fail).norm = none ∧
    (estimate_best_fit cfg_w ds_one br_fail).niter = 20 := by
  have h := estimate_best_fit_brentq_failure cfg_w ds_one br_fail
    (by norm_num [SimpleMapDataset.counts_sum, ds_one]) rfl
  simpa [cfg_w] using h

/-- C6: `estimate_sqrt_ts` maps a TS map pixelwise to `sqrt(ts)` where `ts > 0` and
to `-sqrt(-ts)` otherwise; consequently `sqrt_ts` has the same sign as `ts` and its
square is `|ts|` (exactly, in the real model); NaN pixels stay NaN. -/
theorem estimate_sqrt_ts_sign_sq (map_ts : Pos → FVal) (p : Pos) :
    (∀ x : ℝ, map_ts p = some x →
      ∃ s, estimate_sqrt_ts map_ts p = some s ∧
        s = (if x > 0 then Real.sqrt x else -Real.sqrt (-x)) ∧
        Real.sign s = Real.sign x ∧ s ^ 2 = |x|) ∧
    (map_ts p = none → estimate_sqrt_ts map_ts p = none) := by
  constructor
  · intro x hx
    refine ⟨if x > 0 then Real.sqrt x else -Real.sqrt (-x), ?_, rfl, ?_, ?_⟩
    · unfold estimate_sqrt_ts
      rw [hx]
    · by_cases h : x > 0
      · rw [if_pos h, Real.sign_of_pos h, Real.sign_of_pos (Real.sqrt_pos.mpr h)]
      · rw [if_neg h]
        push_neg at h
        rcases h.lt_or_eq with hlt | heq
        · have hpos : 0 < Real.sqrt (-x) := Real.sqrt_pos.mpr (by linarith)
          rw [Real.sign_of_neg (by linarith), Real.sign_of_neg hlt]
        · subst heq
          simp
    · by_cases h : x > 0
      · rw [if_pos h, Real.sq_sqrt h.le, abs_of_pos h]
      · push_neg at h
        rw [if_neg (not_lt.mpr h), neg_pow, Real.sq_sqrt (by linarith : (0:ℝ) ≤ -x),
          abs_of_nonpos h]
        ring
  · intro hx
    unfold estimate_sqrt_ts
    rw [hx]

/-- Witness for C6 at the pixel value `ts = -4`: `sqrt_ts = -2`. -/
theorem estimate_sqrt_ts_sign_sq_witness :
    ∃ s, estimate_sqrt_ts (fun _ => some (-4)) (0, 0) = some s ∧
      s = (if (-4 : ℝ) > 0 then Real.sqrt (-4) else -Real.sqrt (-(-4))) ∧
      Real.sign s = Real.sign (-4 : ℝ) ∧ s ^ 2 = |(-4 : ℝ)| :=
  (estimate_sqrt_ts_sign_sq (fun _ => some (-4)) (0, 0)).1 (-4) rfl

/-- Dot product of the rescaled kernel with a list, in closed form. -/
lemma dot_map_div (S : ℝ) : ∀ k : List ℝ,
    dot (k.map (fun a => a / S)) k = sum_sq k / S := by
  intro k
  induction k with
  | nil => simp [dot, sum_sq]
  | cons a t ih =>
    unfold dot sum_sq at *
    simp only [List.map_cons, List.zip_cons_cons, List.sum_cons]
    rw [ih]
    ring

/-- C9 (amended): `estimate_flux_default` convolves the background-subtracted
residual divided by exposure with the kernel divided by the sum of its squares, then
sums over the non-spatial axis; the rescaled kernel is normalized so that its inner
product with the original kernel is `1` (the matched-filter normalization) — not so
that its own sum of squares is `1`. -/
theorem estimate_flux_default_matched_filter {ι κ : Type}
    (convolve : (ι → ℝ) → List ℝ → ι → ℝ) (sum_over_axes : (ι → ℝ) → κ → ℝ)
    (counts npred exposure : ι → ℝ) (kernel : List ℝ) :
    estimate_flux_default convolve sum_over_axes counts npred exposure kernel
      = sum_over_axes (convolve (fun i => (counts i - npred i) / exposure i)
          (kernel.map (fun a => a / sum_sq kernel))) ∧
    (sum_sq kernel ≠ 0 → dot (flux_kernel kernel) kernel = 1) := by
  constructor
  · rfl
  · intro h
    unfold flux_kernel
    rw [dot_map_div (sum_sq kernel) kernel, div_self h]

/-- Witness for C9 on the kernel `[1/2, 1/2]` (sum of squares `1/2 ≠ 0`). -/
theorem estimate_flux_default_matched_filter_witness :
    dot (flux_kernel [(1:ℝ)/2, 1/2]) [(1:ℝ)/2, 1/2] = 1 :=
  (@estimate_flux_default_matched_filter Unit Unit
    (fun _ _ _ => 0) (fun _ _ => 0) (fun _ => 0) (fun _ => 0) (fun _ => 0)
    [(1:ℝ)/2, 1/2]).2 (by norm_num [sum_sq])

/-- Counterexample for C9 as stated: the kernel copy actually used by
`estimate_flux_default` for the kernel `[1/2, 1/2]` (which has sum `1`, as kernels
do) has sum of squares `2`, not `1`. -/
theorem flux_kernel_sum_sq_ne_one :
    sum_sq (flux_kernel [(1:ℝ)/2, 1/2]) = 2 ∧ (2:ℝ) ≠ 1 := by
  constructor
  · norm_num [sum_sq, flux_kernel]
  · norm_num

/-- C7 (amended): when the upper-limit confidence search converges (brentq succeeds,
necessarily with a root inside the upward bracket `[norm, norm + 100 * norm_err]`),
the value stored under `norm_ul` is the non-negative offset `root - norm` of the
upper limit from the best-fit norm — not an absolute norm value, so it need not be
`≥ norm` itself (the absolute upper limit `norm + norm_ul` is). -/
theorem estimate_ul_offset_nonneg (cfg : BrentqFluxEstimator) (ds : SimpleMapDataset)
    (result : FitResult) (brentq : Brentq) (n e root : ℝ) (iters : ℕ)
    (hn : result.norm = some n) (he : result.norm_err = some e)
    (hbr : brentq n (n + 100 * e) = .success root iters)
    (hlo : n ≤ root) (hhi : root ≤ n + 100 * e) :
    estimate_ul cfg ds result brentq = some (root - n) ∧ 0 ≤ root - n := by
  have hc : estimate_ul cfg ds result brentq
      = (match brentq n (n + 100 * e) with
         | BrentqOutcome.success r _ => some ((r - n) * 1)
         | BrentqOutcome.failure => none) := by
    unfold estimate_ul confidence
    rw [hn, he]
    rfl
  constructor
  · rw [hc, hbr]
    show some ((root - n) * 1) = some (root - n)
    rw [mul_one]
  · linarith

/-- Witness for C7 on the converged result `result_w` (norm `2`, error `1`) with the
upper-limit root `3`. -/
theorem estimate_ul_offset_nonneg_witness :
    estimate_ul cfg_w ds_one result_w br_ul_w = some (3 - 2) ∧ (0:ℝ) ≤ 3 - 2 :=
  estimate_ul_offset_nonneg cfg_w ds_one result_w br_ul_w 2 1 3 4 rfl rfl rfl
    (by norm_num) (by norm_num)

/-- Counterexample for C7 as stated: on `dsC` the best-fit norm is `999999` while the
converged `norm_ul` is the offset `2000`, so `norm_ul ≥ norm` fails. -/
theorem estimate_ul_lt_norm_counterexample :
    estimate_ul cfg_w dsC (estimate_best_fit cfg_w dsC br_fitC) br_ulC = some 2000 ∧
    (estimate_best_fit cfg_w dsC br_fitC).norm = some 999999 ∧
    ¬ ((999999 : ℝ) ≤ 2000) := by
  refine ⟨?_, dsC_norm, by norm_num⟩
  have hc : estimate_ul cfg_w dsC (estimate_best_fit cfg_w dsC br_fitC) br_ulC
      = (match br_ulC 999999 (999999 + 100 * 1000) with
         | BrentqOutcome.success r _ => some ((r - 999999) * 1)
         | BrentqOutcome.failure => none) := by
    unfold estimate_ul confidence
    rw [dsC_norm, dsC_norm_err]
    rfl
  rw [hc]
  show some ((1001999 - 999999 : ℝ) * 1) = some 2000
  norm_num

/-- C8 (amended): when the two one-sided confidence searches converge (brentq
succeeds, necessarily with roots inside the downward bracket
`[norm - 100 * norm_err, norm]` and the upward bracket `[norm, norm + 100 * norm_err]`
respectively), both returned values are non-negative: `norm_errn` is the *negated*
offset `norm - root` (the magnitude of the downward excursion), not a value `≤ 0`,
and `norm_errp` is the offset `root - norm ≥ 0`. -/
theorem estimate_errn_errp_nonneg (cfg : BrentqFluxEstimator) (ds : SimpleMapDataset)
    (result : FitResult) (br_errn br_errp : Brentq) (n e rootn rootp : ℝ)
    (itn itp : ℕ)
    (hn : result.norm = some n) (he : result.norm_err = some e)
    (hbrn : br_errn (n - 100 * e) n = .success rootn itn)
    (hbrp : br_errp n (n + 100 * e) = .success rootp itp)
    (hlon : n - 100 * e ≤ rootn) (hhin : rootn ≤ n)
    (hlop : n ≤ rootp) (hhip : rootp ≤ n + 100 * e) :
    (estimate_errn_errp cfg ds result br_errn br_errp).1 = some (n - rootn) ∧
    0 ≤ n - rootn ∧
    (estimate_errn_errp cfg ds result br_errn br_errp).2 = some (rootp - n) ∧
    0 ≤ rootp - n := by
  refine ⟨?_, by linarith, ?_, by linarith⟩
  · have hc : (estimate_errn_errp cfg ds result br_errn br_errp).1
        = (match br_errn (n - 100 * e) n with
           | BrentqOutcome.success r _ => some ((r - n) * (-1))
           | BrentqOutcome.failure => none) := by
      show confidence cfg ds cfg.n_sigma result false br_errn = _
      unfold confidence
      rw [hn, he]
      rfl
    rw [hc, hbrn]
    show some ((rootn - n) * (-1)) = some (n - rootn)
    congr 1
    ring
  · have hc : (estimate_errn_errp cfg ds result br_errn br_errp).2
        = (match br_errp n (n + 100 * e) with
           | BrentqOutcome.success r _ => some ((r - n) * 1)
           | BrentqOutcome.failure => none) := by
      show confidence cfg ds cfg.n_sigma result true br_errp = _
      unfold confidence
      rw [hn, he]
      rfl
    rw [hc, hbrp]
    show some ((rootp - n) * 1) = some (rootp - n)
    rw [mul_one]

/-- Witness for C8 on the converged result `result_w` with roots `1` (down) and `3`
(up). -/
theorem estimate_errn_errp_nonneg_witness :
    (estimate_errn_errp cfg_w ds_one result_w br_errn_w br_ul_w).1 = some (2 - 1) ∧
    (0:ℝ) ≤ 2 - 1 ∧
    (estimate_errn_errp cfg_w ds_one result_w br_errn_w br_ul_w).2 = some (3 - 2) ∧
    (0:ℝ) ≤ 3 - 2 :=
  estimate_errn_errp_nonneg cfg_w ds_one result_w br_errn_w br_ul_w 2 1 1 3 2 4
    rfl rfl rfl rfl (by norm_num) (by norm_num) (by norm_num) (by norm_num)

/-- Counterexample for C8 as stated: on `dsC` the converged `norm_errn` is `+999`,
which is not `≤ 0`. -/
theorem estimate_errn_pos_counterexample :
    (estimate_errn_errp cfg_w dsC
        (estimate_best_fit cfg_w dsC br_fitC) br_errnC br_ulC).1 = some 999 ∧
    ¬ ((999 : ℝ) ≤ 0) := by
  refine ⟨?_, by norm_num⟩
  have hc : (estimate_errn_errp cfg_w dsC
        (estimate_best_fit cfg_w dsC br_fitC) br_errnC br_ulC).1
      = (match br_errnC (999999 - 100 * 1000) 999999 with
         | BrentqOutcome.success r _ => some ((r - 999999) * (-1))
         | BrentqOutcome.failure => none) := by
    show confidence cfg_w dsC cfg_w.n_sigma
        (estimate_best_fit cfg_w dsC br_fitC) false br_errnC = _
    unfold confidence
    rw [dsC_norm, dsC_norm_err]
    rfl
  rw [hc]
  show some ((999000 - 999999 : ℝ) * (-1)) = some 999
  norm_num

/-- The configuration `cfg_w` with a TS pre-screening threshold of `1` installed. -/
def cfg_s : BrentqFluxEstimator :=
  { rtol := 0.01, n_sigma := 1, n_sigma_ul := 2, sel_errn_errp := true,
    sel_ul := true, max_niter := 20, ts_threshold := some 1, flux_ref := 1 }

/-- The screening TS of `ds_one` (flux seed `0`) vanishes. -/
lemma ts_guess_ds_one : ts_guess cfg_s ds_one = some 0 := by
  unfold ts_guess
  rw [show fdiv ds_one.x_guess (some cfg_s.flux_ref) = some 0 by
    show (if (cfg_s.flux_ref = 0) then none else some (0 / cfg_s.flux_ref)) = some 0
    rw [if_neg (by norm_num [cfg_s])]
    norm_num [cfg_s]]
  show some ((ds_one.stat_sum 0 - ds_one.stat_sum 0) * Real.sign 0) = some 0
  rw [sub_self, zero_mul]

/-- C5 (amended): with a TS pre-screening threshold configured and the TS at the
externally supplied flux seed (converted to a norm by dividing by the flux reference
scale) below that threshold, `run` performs no root-finding (the result does not
depend on any of the four brentq oracles) and returns `nan_result`: `norm`, `stat`,
`norm_err` and `ts` are NaN, the optional `norm_ul` / `norm_errn` / `norm_errp`
entries are present with NaN value when selected — but `niter` is the integer `0`,
not NaN. -/
theorem run_screened_nan_result (cfg : BrentqFluxEstimator) (ds : SimpleMapDataset)
    (b1 b2 b3 b4 : Brentq) (threshold t : ℝ)
    (hth : cfg.ts_threshold = some threshold)
    (ht : ts_guess cfg ds = some t) (hlt : t < threshold) :
    run cfg ds b1 b2 b3 b4 = nan_result cfg ∧
    (nan_result cfg).norm = none ∧ (nan_result cfg).ts = none ∧
    (nan_result cfg).norm_err = none ∧ (nan_result cfg).stat = none ∧
    (nan_result cfg).niter = 0 ∧
    (cfg.sel_ul = true → (nan_result cfg).norm_ul = some none) ∧
    (cfg.sel_errn_errp = true →
      (nan_result cfg).norm_errn = some none ∧
      (nan_result cfg).norm_errp = some none) := by
  have hs : screened cfg ds := by
    unfold screened
    rw [hth]
    exact ⟨t, ht, hlt⟩
  refine ⟨?_, rfl, rfl, rfl, rfl, rfl, ?_, ?_⟩
  · unfold run
    rw [if_pos hs]
  · intro h
    simp [nan_result, h]
  · intro h
    constructor <;> simp [nan_result, h]

/-- Witness for C5 on `ds_one` with threshold `1` and screening TS `0 < 1`. -/
theorem run_screened_nan_result_witness :
    run cfg_s ds_one br_fail br_fail br_fail br_fail = nan_result cfg_s ∧
    (nan_result cfg_s).norm = none ∧ (nan_result cfg_s).ts = none ∧
    (nan_result cfg_s).norm_err = none ∧ (nan_result cfg_s).stat = none ∧
    (nan_result cfg_s).niter = 0 ∧
    (cfg_s.sel_ul = true → (nan_result cfg_s).norm_ul = some none) ∧
    (cfg_s.sel_errn_errp = true →
      (nan_result cfg_s).norm_errn = some none ∧
      (nan_result cfg_s).norm_errp = some none) :=
  run_screened_nan_result cfg_s ds_one br_fail br_fail br_fail br_fail 1 0
    rfl ts_guess_ds_one (by norm_num)

/-- Counterexample for C5 as stated ("a result all of whose fields are NaN"): on the
screened-out pixel the `niter` entry of the returned dictionary is the number `0`,
not NaN (and the result is indeed the short-circuit one: its `norm` is NaN). -/
theorem run_screened_niter_zero :
    (run cfg_s ds_one br_fail br_fail br_fail br_fail).niter = 0 ∧
    (run cfg_s ds_one br_fail br_fail br_fail br_fail).norm = none := by
  have hs : screened cfg_s ds_one := by
    unfold screened
    show fval_lt (ts_guess cfg_s ds_one) 1
    exact ⟨0, ts_guess_ds_one, by norm_num⟩
  have hr : run cfg_s ds_one br_fail br_fail br_fail br_fail = nan_result cfg_s := by
    unfold run
    rw [if_pos hs]
  rw [hr]
  exact ⟨rfl, rfl⟩

/-- A scan input whose mask excludes every pixel. -/
def inp_empty : ScanInputs :=
  { pixels := [(0, 0), (0, 1)], mask := fun _ => false, ts_value := fun _ => result_w }

/-- A scan input over `2` pixels whose mask keeps only `(0, 0)`. -/
def inp_w : ScanInputs :=
  { pixels := [(0, 0), (0, 1)], mask := fun q => decide (q = (0, 0)),
    ts_value := fun _ => result_w }

/-- C4: when the evaluation mask is false at every pixel, the positions list is empty
and `TSMapEstimator.run` raises `ValueError` at `j, i = zip(*positions)` (unpacking
two variables from an empty `zip`) instead of returning all-NaN maps — the scan
aborts with an exception, contradicting the spec's "no crash" property. -/
theorem ts_map_run_all_masked_raises (cfg : BrentqFluxEstimator) (inp : ScanInputs)
    (h : ∀ p, inp.mask p = false) :
    ts_map_run cfg inp = Except.error () := by
  have hf : inp.pixels.filter inp.mask = [] :=
    List.filter_eq_nil_iff.mpr (fun a _ => by simp [h a])
  unfold ts_map_run
  rw [if_pos hf]

/-- Witness for C4 on the concrete all-false-mask input `inp_empty`. -/
theorem ts_map_run_all_masked_raises_witness :
    (∀ p, inp_empty.mask p = false) ∧
    ts_map_run cfg_w inp_empty = Except.error () :=
  ⟨fun _ => rfl, ts_map_run_all_masked_raises cfg_w inp_empty (fun _ => rfl)⟩

/-- C10: whenever the scan-and-scatter phase completes (at least one pixel is
masked in, otherwise it raises — see C4), every named output map is created filled
with NaN and written only at mask-true positions: at every pixel where the mask is
false all named maps (including the selected optional ones) hold NaN, and at every
mask-true pixel the `ts` map holds exactly that pixel's own result, untouched by the
writes of the other positions. -/
theorem ts_map_run_masked_nan (cfg : BrentqFluxEstimator) (inp : ScanInputs) (p : Pos)
    (hne : inp.pixels.filter inp.mask ≠ []) (hnd : inp.pixels.Nodup) :
    ∃ maps, ts_map_run cfg inp = Except.ok maps ∧
      (inp.mask p = false →
        maps.ts p = none ∧ maps.flux p = none ∧ maps.niter p = none ∧
        maps.flux_err p = none ∧
        (∀ m, maps.flux_errp = some m → m p = none) ∧
        (∀ m, maps.flux_errn = some m → m p = none) ∧
        (∀ m, maps.flux_ul = some m → m p = none)) ∧
      (inp.mask p = true → p ∈ inp.pixels →
        maps.ts p = (inp.ts_value p).ts) := by
  refine ⟨scatter_maps cfg inp (inp.pixels.filter inp.mask), ?_, ?_, ?_⟩
  · unfold ts_map_run
    rw [if_neg hne]
  · intro hmask
    have hpnot : p ∉ inp.pixels.filter inp.mask := by
      intro hmem
      have := (List.mem_filter.mp hmem).2
      rw [hmask] at this
      exact Bool.false_ne_true this
    have hsc : ∀ vals, scatter_vals (inp.pixels.filter inp.mask) vals p = none :=
      fun vals => scatter_vals_not_mem _ vals p hpnot
    refine ⟨hsc _, ?_, hsc _, ?_, ?_, ?_, ?_⟩
    · show map_scale cfg.flux_ref (scatter_vals _ _) p = none
      unfold map_scale
      rw [hsc]
      rfl
    · show map_scale cfg.flux_ref (scatter_vals _ _) p = none
      unfold map_scale
      rw [hsc]
      rfl
    · intro m hm
      by_cases hsel : cfg.sel_errn_errp
      · have : (scatter_maps cfg inp (inp.pixels.filter inp.mask)).flux_errp
            = some (map_scale cfg.flux_ref (scatter_vals (inp.pixels.filter inp.mask)
              (((inp.pixels.filter inp.mask).map inp.ts_value).map
                (fun r => r.norm_errp.getD none)))) := by
          show (if cfg.sel_errn_errp then _ else none) = _
          rw [if_pos hsel]
        rw [this] at hm
        cases hm
        unfold map_scale
        rw [hsc]
        rfl
      · have : (scatter_maps cfg inp (inp.pixels.filter inp.mask)).flux_errp = none := by
          show (if cfg.sel_errn_errp then _ else none) = none
          rw [if_neg hsel]
        rw [this] at hm
        cases hm
    · intro m hm
      by_cases hsel : cfg.sel_errn_errp
      · have : (scatter_maps cfg inp (inp.pixels.filter inp.mask)).flux_errn
            = some (map_scale cfg.flux_ref (scatter_vals (inp.pixels.filter inp.mask)
              (((inp.pixels.filter inp.mask).map inp.ts_value).map
                (fun r => r.norm_errn.getD none)))) := by
          show (if cfg.sel_errn_errp then _ else none) = _
          rw [if_pos hsel]
        rw [this] at hm
        cases hm
        unfold map_scale
        rw [hsc]
        rfl
      · have : (scatter_maps cfg inp (inp.pixels.filter inp.mask)).flux_errn = none := by
          show (if cfg.sel_errn_errp then _ else none) = none
          rw [if_neg hsel]
        rw [this] at hm
        cases hm
    · intro m hm
      by_cases hsel : cfg.sel_ul
      · have : (scatter_maps cfg inp (inp.pixels.filter inp.mask)).flux_ul
            = some (map_scale cfg.flux_ref (scatter_vals (inp.pixels.filter inp.mask)
              (((inp.pixels.filter inp.mask).map inp.ts_value).map
                (fun r => r.norm_ul.getD none)))) := by
          show (if cfg.sel_ul then _ else none) = _
          rw [if_pos hsel]
        rw [this] at hm
        cases hm
        unfold map_scale
        rw [hsc]
        rfl
      · have : (scatter_maps cfg inp (inp.pixels.filter inp.mask)).flux_ul = none := by
          show (if cfg.sel_ul then _ else none) = none
          rw [if_neg hsel]
        rw [this] at hm
        cases hm
  · intro hmask hmem
    have hp : p ∈ inp.pixels.filter inp.mask := List.mem_filter.mpr ⟨hmem, hmask⟩
    show scatter_vals (inp.pixels.filter inp.mask)
        (((inp.pixels.filter inp.mask).map inp.ts_value).map FitResult.ts) p
      = (inp.ts_value p).ts
    rw [List.map_map]
    exact scatter_vals_self (FitResult.ts ∘ inp.ts_value)
      (inp.pixels.filter inp.mask) p (hnd.filter inp.mask) hp

/-- Witness for C10 on `inp_w` at the mask-false pixel `(0, 1)`. -/
theorem ts_map_run_masked_nan_witness :
    ∃ maps, ts_map_run cfg_w inp_w = Except.ok maps ∧
      (inp_w.mask (0, 1) = false →
        maps.ts (0, 1) = none ∧ maps.flux (0, 1) = none ∧ maps.niter (0, 1) = none ∧
        maps.flux_err (0, 1) = none ∧
        (∀ m, maps.flux_errp = some m → m (0, 1) = none) ∧
        (∀ m, maps.flux_errn = some m → m (0, 1) = none) ∧
        (∀ m, maps.flux_ul = some m → m (0, 1) = none)) ∧
      (inp_w.mask (0, 1) = true → (0, 1) ∈ inp_w.pixels →
        maps.ts (0, 1) = (inp_w.ts_value (0, 1)).ts) :=
  ts_map_run_masked_nan cfg_w inp_w (0, 1) (by decide) (by decide)

/-- Degenerate cutout for the C1 counterexample: one bin with counts `1`,
background `1` and model amplitude `0` (zero exposure), so the Cash statistic does
not depend on the norm at all and its derivative is identically zero. -/
def ds_deg : SimpleMapDataset :=
  { bins := [⟨1, 1, 0⟩], x_guess := some 0, norm_bounds := (-1, 1, -1) }

/-- Oracle for the best-fit call on `ds_deg`: the derivative is identically `0`, and
`scipy.optimize.brentq` returns the left bracket endpoint immediately (with zero
iterations) when the function vanishes there, so the realistic outcome is the left
endpoint `norm_min = -1`. -/
def br_deg : Brentq := fun _ _ => .success (-1) 0

/-- Cutout for the C1 witness: one bin with counts `1`, background `2`, model `1`;
the exact root of the statistic derivative is `(1 - 2) / 1 = -1`, and the floor `-2`
is where the predicted counts reach zero. -/
def ds_w1 : SimpleMapDataset :=
  { bins := [⟨1, 2, 1⟩], x_guess := some 0, norm_bounds := (-2, 5, -2) }

/-- Oracle for the best-fit call on `ds_w1`: the exact root `-1`. -/
def br_w1 : Brentq := fun _ _ => .success (-1) 3

/-- C1 (amended): `estimate_best_fit` computes
`ts = (stat_sum(0) - stat_sum(norm)) * sign(norm)` where `norm` is the value after
clamping to `norm_min_total` (sign factor taken from the clamped value, not from the
unconstrained root; in the zero-counts case `norm` is `norm_min_total` itself);
consequently, whenever the fitted norm is negative, `ts` is *non-positive* — and, as
the counterexample shows, it can be exactly `0` rather than strictly negative when
the statistic is flat between the clamped norm and `0`.  The non-positivity is
proved for a converged fit: the oracle root is an exact zero of the derivative,
with non-negative counts and model amplitudes and positive predicted counts. -/
theorem estimate_best_fit_ts_sign (cfg : BrentqFluxEstimator) (ds : SimpleMapDataset)
    (brentq : Brentq) :
    (estimate_best_fit cfg ds brentq).ts
      = fmul (fsub (ds.stat_sum_f (some 0))
               (ds.stat_sum_f (estimate_best_fit cfg ds brentq).norm))
             (fsign (estimate_best_fit cfg ds brentq).norm) ∧
    (∀ root iters, 0 < ds.counts_sum →
      brentq ds.norm_bounds.1 ds.norm_bounds.2.1 = .success root iters →
      (estimate_best_fit cfg ds brentq).norm
        = some (max root ds.norm_bounds.2.2)) ∧
    (∀ root iters, 0 < ds.counts_sum →
      brentq ds.norm_bounds.1 ds.norm_bounds.2.1 = .success root iters →
      (∀ b ∈ ds.bins,
        0 ≤ b.counts ∧ 0 ≤ b.model ∧ 0 < b.background + root * b.model) →
      ds.stat_derivative root = 0 →
      max root ds.norm_bounds.2.2 < 0 →
      ∃ t, (estimate_best_fit cfg ds brentq).ts = some t ∧ t ≤ 0) := by
  refine ⟨rfl, ?_, ?_⟩
  · intro root iters hc hbr
    show (best_norm_niter cfg ds brentq).1 = some (max root ds.norm_bounds.2.2)
    unfold best_norm_niter
    rw [if_neg (not_not_intro hc), hbr]
  · intro root iters hc hbr H hd0 hneg
    have hnormval : (best_norm_niter cfg ds brentq).1
        = some (max root ds.norm_bounds.2.2) := by
      unfold best_norm_niter
      rw [if_neg (not_not_intro hc), hbr]
    have hroot_le : root ≤ max root ds.norm_bounds.2.2 := le_max_left _ _
    have Hn : ∀ b ∈ ds.bins, 0 ≤ b.counts ∧ 0 ≤ b.model ∧
        0 < b.background + (max root ds.norm_bounds.2.2) * b.model := by
      intro b hb
      obtain ⟨h1, h2, h3⟩ := H b hb
      refine ⟨h1, h2, ?_⟩
      have hmul : root * b.model ≤ (max root ds.norm_bounds.2.2) * b.model :=
        mul_le_mul_of_nonneg_right hroot_le h2
      linarith
    have hDmono : ds.stat_derivative root
        ≤ ds.stat_derivative (max root ds.norm_bounds.2.2) :=
      stat_derivative_mono ds root _ hroot_le H
    have hD : 0 ≤ ds.stat_derivative (max root ds.norm_bounds.2.2) := by
      linarith [hDmono, hd0]
    have hsub := stat_sum_subgrad ds (max root ds.norm_bounds.2.2) 0
      (le_of_lt hneg) Hn
    have hprod : 0 ≤ (0 - max root ds.norm_bounds.2.2)
        * ds.stat_derivative (max root ds.norm_bounds.2.2) :=
      mul_nonneg (by linarith) hD
    have hstat : ds.stat_sum (max root ds.norm_bounds.2.2) ≤ ds.stat_sum 0 := by
      linarith
    refine ⟨(ds.stat_sum 0 - ds.stat_sum (max root ds.norm_bounds.2.2)) * (-1),
      ?_, ?_⟩
    · show fmul (fsub (ds.stat_sum_f (some 0))
          (ds.stat_sum_f (best_norm_niter cfg ds brentq).1))
          (fsign (best_norm_niter cfg ds brentq).1) = _
      rw [hnormval]
      show some ((ds.stat_sum 0 - ds.stat_sum (max root ds.norm_bounds.2.2))
          * Real.sign (max root ds.norm_bounds.2.2)) = _
      rw [Real.sign_of_neg hneg]
    · nlinarith [hstat]

/-- Witness for C1 on the one-bin deficit cutout `ds_w1` (clamped norm `-1 < 0`). -/
theorem estimate_best_fit_ts_sign_witness :
    ∃ t, (estimate_best_fit cfg_w ds_w1 br_w1).ts = some t ∧ t ≤ 0 := by
  obtain ⟨-, -, h3⟩ := estimate_best_fit_ts_sign cfg_w ds_w1 br_w1
  refine h3 (-1) 3 (by norm_num [SimpleMapDataset.counts_sum, ds_w1]) rfl ?_ ?_ ?_
  · intro b hb
    simp only [ds_w1, List.mem_singleton] at hb
    subst hb
    refine ⟨by norm_num, by norm_num, by norm_num⟩
  · norm_num [SimpleMapDataset.stat_derivative, ds_w1]
  · rw [show ds_w1.norm_bounds.2.2 = (-2 : ℝ) from rfl,
      max_eq_left (by norm_num : (-2:ℝ) ≤ -1)]
    norm_num

/-- Counterexample for C1's "ts is negative whenever the fitted norm is negative":
on the degenerate cutout `ds_deg` (model identically zero, so the statistic is flat)
the clamped norm is `-1 < 0` yet `ts = 0`, which is not negative. -/
theorem estimate_best_fit_ts_zero_counterexample :
    (estimate_best_fit cfg_w ds_deg br_deg).norm = some (-1) ∧ ((-1:ℝ) < 0) ∧
    (estimate_best_fit cfg_w ds_deg br_deg).ts = some 0 ∧ ¬ ((0:ℝ) < 0) := by
  have hb : best_norm_niter cfg_w ds_deg br_deg = (some (-1), 0) := by
    unfold best_norm_niter
    rw [if_neg (not_not_intro
      (by norm_num [SimpleMapDataset.counts_sum, ds_deg] : (0:ℝ) < ds_deg.counts_sum))]
    simp only [br_deg]
    rw [show ds_deg.norm_bounds.2.2 = (-1:ℝ) from rfl, max_self]
  refine ⟨?_, by norm_num, ?_, by norm_num⟩
  · show (best_norm_niter cfg_w ds_deg br_deg).1 = some (-1)
    rw [hb]
  · show fmul (fsub (ds_deg.stat_sum_f (some 0))
        (ds_deg.stat_sum_f (best_norm_niter cfg_w ds_deg br_deg).1))
        (fsign (best_norm_niter cfg_w ds_deg br_deg).1) = some 0
    rw [hb]
    show some ((ds_deg.stat_sum 0 - ds_deg.stat_sum (-1)) * Real.sign (-1)) = some 0
    have h1 : ds_deg.stat_sum 0 = 2 := by
      norm_num [SimpleMapDataset.stat_sum, ds_deg, Real.log_one]
    have h2 : ds_deg.stat_sum (-1) = 2 := by
      norm_num [SimpleMapDataset.stat_sum, ds_deg, Real.log_one]
    rw [h1, h2, sub_self, zero_mul]

end GammapyTs
